import Mathlib

namespace StreamDeck

/- Shallow embedding of the StreamDeckState class of server.py: the page and
   button data model, validation, the orchestrator operations, the connect
   lifecycle, and the hardware key-event callback, together with a
   reachability relation over sequences of orchestrator operations.
   The device is modelled as healthy when connected (a connected handle
   answers its key-count query), Pillow is modelled as installed, and
   rendering succeeds; two ghost fields observe persistence calls and
   dispatched command strings. -/

/-- Error kinds, distinguished in server.py by exception class and message. -/
inductive Err where
  | DeckNotConnected
  | DeckDisconnected
  | InvalidKey
  | InvalidColor
  | InvalidPageName
  | EmptyAction
  | UnknownPage
  | CannotDeleteMain
  | NoDeviceFound
  | ConnectionExhausted
  | EnumerateFailed
  | OpenFailed
deriving DecidableEq

/-- Association-list lookup, modelling Python dict access (keys unique). -/
def alookup {α : Type} : List (String × α) → String → Option α
  | [], _ => none
  | (k, v) :: rest, q => if k = q then some v else alookup rest q

/-- Association-list insert-or-replace, modelling Python dict assignment. -/
def aupsert {α : Type} : List (String × α) → String → α → List (String × α)
  | [], q, w => [(q, w)]
  | (k, v) :: rest, q, w =>
    if k = q then (q, w) :: rest else (k, v) :: aupsert rest q w

/-- Association-list removal, modelling Python dict del. -/
def aerase {α : Type} : List (String × α) → String → List (String × α)
  | [], _ => []
  | (k, v) :: rest, q => if k = q then rest else (k, v) :: aerase rest q

/-- One persisted button appearance: the dict stored at pages[page][str(key)]
    by set_button_image. -/
structure ButtonConfig where
  text : Option String
  image_path : Option String
  bg_color : List Int
  text_color : List Int
  font_size : Int
deriving DecidableEq

/-- One action binding: the dict stored at button_callbacks[page][str(key)].
    The action and type keys may be absent in data loaded from disk. -/
structure Binding where
  action : Option String
  btype : Option String
deriving DecidableEq

abbrev PageMap := List (String × ButtonConfig)
abbrev PagesMap := List (String × PageMap)
abbrev BindPage := List (String × Binding)
abbrev BindingsMap := List (String × BindPage)

/-- A connected device handle; key_count is the only attribute the state
    machine reads in this model. -/
structure Deck where
  key_count : Nat
deriving DecidableEq

/-- The StreamDeckState instance fields, plus two ghost observation fields:
    saves counts the calls of the private save-state method, and dispatched
    logs the command strings handed to subprocess.Popen. -/
structure State where
  deck : Option Deck
  current_page : String
  pages : PagesMap
  button_callbacks : BindingsMap
  brightness : Int
  connect_attempts : Nat
  saves : Nat
  dispatched : List String
deriving DecidableEq

/-- External world as seen by set_button_image: which image paths exist. -/
structure Env where
  imgExists : String → Bool

def MAX_PAGE_NAME_LENGTH : Nat := 50

def MAX_RECONNECT_ATTEMPTS : Nat := 3

def DEFAULT_BG_COLOR : List Int := [0, 0, 0]

def DEFAULT_TEXT_COLOR : List Int := [255, 255, 255]

/-- Code points matched by the Python re module's backslash-s class on str
    (Unicode whitespace). -/
def pyWhitespaceCodes : List Nat :=
  [0x09, 0x0a, 0x0b, 0x0c, 0x0d, 0x1c, 0x1d, 0x1e, 0x1f, 0x20, 0x85, 0xa0,
   0x1680, 0x2000, 0x2001, 0x2002, 0x2003, 0x2004, 0x2005, 0x2006, 0x2007,
   0x2008, 0x2009, 0x200a, 0x2028, 0x2029, 0x202f, 0x205f, 0x3000]

def isPyWhitespace (c : Char) : Bool := pyWhitespaceCodes.contains c.toNat

/-- The character class of PAGE_NAME_PATTERN (server.py line 62): lower and
    upper ASCII letters, digits, underscore, hyphen, and the whitespace
    class. -/
def isPageNameChar (c : Char) : Bool :=
  (0x61 ≤ c.toNat && c.toNat ≤ 0x7a) ||
  (0x41 ≤ c.toNat && c.toNat ≤ 0x5a) ||
  (0x30 ≤ c.toNat && c.toNat ≤ 0x39) ||
  c.toNat == 0x5f || c.toNat == 0x2d || isPyWhitespace c

/-- The StreamDeckState method validating a page name. -/
def validate_page_name (name : String) : Except Err Unit :=
  if name.isEmpty then .error .InvalidPageName
  else if name.length > MAX_PAGE_NAME_LENGTH then .error .InvalidPageName
  else if name.toList.all isPageNameChar then .ok () else .error .InvalidPageName

/-- The StreamDeckState method validating a key index: non-negative, and
    below the key count when a deck is connected. -/
def validate_key (s : State) (key : Int) : Except Err Unit :=
  if key < 0 then .error .InvalidKey
  else
    match s.deck with
    | none => .ok ()
    | some d => if (d.key_count : Int) ≤ key then .error .InvalidKey else .ok ()

/-- The component loop of the color validator: each component must lie in
    [0, 255]; the validated components are collected in order. -/
def validateComponents : List Int → Except Err (List Int)
  | [] => .ok []
  | v :: rest =>
    if v < 0 || 255 < v then .error .InvalidColor
    else
      match validateComponents rest with
      | .error e => .error e
      | .ok r => .ok (v :: r)

/-- The StreamDeckState method validating an RGB triple (components are
    integers in this model; Python additionally truncates float components). -/
def validate_color (color : List Int) : Except Err (List Int) :=
  if color.length = 3 then validateComponents color else .error .InvalidColor

/-- The StreamDeckState connectivity check; a connected handle is healthy in
    this model, so only the not-connected case fails. -/
def check_deck_connected (s : State) : Except Err Unit :=
  match s.deck with
  | none => .error .DeckNotConnected
  | some _ => .ok ()

/-- The StreamDeckState persistence call; disk writes are best effort, so the
    model only counts them in the ghost field. -/
def save_state (s : State) : State := { s with saves := s.saves + 1 }

/-- StreamDeckState.set_button_image in the healthy-device model: connectivity
    check, key and color validation, then the config upsert on the current
    page. A configured image_path falls back to none when the file does not
    exist on disk (the text branch is then used). -/
def set_button_image (env : Env) (s : State) (key : Int)
    (image_path text : Option String) (bg_color text_color : List Int)
    (font_size : Int) (sv : Bool) : State × Except Err Bool :=
  match check_deck_connected s with
  | .error e => (s, .error e)
  | .ok _ =>
    match validate_key s key with
    | .error e => (s, .error e)
    | .ok _ =>
      match validate_color bg_color with
      | .error e => (s, .error e)
      | .ok bg =>
        match validate_color text_color with
        | .error e => (s, .error e)
        | .ok tc =>
          let ip : Option String :=
            match image_path with
            | some p => if env.imgExists p then some p else none
            | none => none
          let cfg : ButtonConfig :=
            { text := text, image_path := ip, bg_color := bg, text_color := tc,
              font_size := font_size }
          let page := (alookup s.pages s.current_page).getD []
          let s1 := { s with
            pages := aupsert s.pages s.current_page (aupsert page (toString key) cfg) }
          (if sv then save_state s1 else s1, .ok true)

/-- StreamDeckState.set_button_action: key validation, non-empty action, then
    the binding upsert on the current page. -/
def set_button_action (s : State) (key : Int) (action : String)
    (action_type : String) (sv : Bool) : State × Except Err Bool :=
  match validate_key s key with
  | .error e => (s, .error e)
  | .ok _ =>
    if action.isEmpty then (s, .error .EmptyAction)
    else
      let page := (alookup s.button_callbacks s.current_page).getD []
      let s1 := { s with
        button_callbacks := aupsert s.button_callbacks s.current_page
          (aupsert page (toString key)
            { action := some action, btype := some action_type }) }
      (if sv then save_state s1 else s1, .ok true)

def pyDigit (c : Char) : Bool := 0x30 ≤ c.toNat && c.toNat ≤ 0x39

/-- Python int(string): strip whitespace, one optional sign, decimal digits
    (digit grouping with underscores is not modelled). -/
def pyParseInt (str0 : String) : Option Int :=
  let cs :=
    ((str0.toList.dropWhile isPyWhitespace).reverse.dropWhile isPyWhitespace).reverse
  let core : List Char → Option Nat := fun ds =>
    if ds.isEmpty then none
    else if ds.all pyDigit then
      some (ds.foldl (fun a c => a * 10 + (c.toNat - 0x30)) 0)
    else none
  match cs with
  | [] => none
  | c :: rest =>
    if c.toNat == 0x2d then (core rest).map (fun n => -(n : Int))
    else if c.toNat == 0x2b then (core rest).map (fun n => (n : Int))
    else (core cs).map (fun n => (n : Int))

/-- The loop of the render-current-page method: re-draws each stored button
    config of the current page through set_button_image; int() parse failures
    and validation failures are caught and skipped. -/
def renderLoop (env : Env) : State → List (String × ButtonConfig) → State
  | s, [] => s
  | s, (keyStr, cfg) :: rest =>
    match pyParseInt keyStr with
    | none => renderLoop env s rest
    | some key =>
      renderLoop env
        (set_button_image env s key cfg.image_path cfg.text cfg.bg_color
          cfg.text_color cfg.font_size true).1 rest

/-- The StreamDeckState render-current-page method: a no-op without a deck. -/
def render_current_page (env : Env) (s : State) : State :=
  match s.deck with
  | none => s
  | some _ => renderLoop env s ((alookup s.pages s.current_page).getD [])

/-- One entry of the set_buttons batch argument (absent dict keys are none). -/
structure BtnSpec where
  key : Option Int
  text : Option String
  image_path : Option String
  bg_color : Option (List Int)
  text_color : Option (List Int)
  font_size : Option Int
  action : Option String
deriving DecidableEq

/-- The per-entry loop of StreamDeckState.set_buttons: entries without a key
    are skipped; ValidationError and StreamDeckError from an entry are caught,
    logged, and do not abort the rest; the success count grows only when both
    the image call and the optional action call succeed. -/
def set_buttons_loop (env : Env) : State → List BtnSpec → Nat → State × Nat
  | s, [], n => (s, n)
  | s, btn :: rest, n =>
    match btn.key with
    | none => set_buttons_loop env s rest n
    | some key =>
      match set_button_image env s key btn.image_path btn.text
          (btn.bg_color.getD DEFAULT_BG_COLOR)
          (btn.text_color.getD DEFAULT_TEXT_COLOR)
          (btn.font_size.getD 14) false with
      | (s1, .error _) => set_buttons_loop env s1 rest n
      | (s1, .ok _) =>
        match btn.action with
        | none => set_buttons_loop env s1 rest (n + 1)
        | some a =>
          match set_button_action s1 key a ("command") false with
          | (s2, .error _) => set_buttons_loop env s2 rest n
          | (s2, .ok _) => set_buttons_loop env s2 rest (n + 1)

/-- StreamDeckState.set_buttons: connectivity check, the per-entry loop with
    per-entry persistence off, then a single save at the end. -/
def set_buttons (env : Env) (s : State) (buttons : List BtnSpec) :
    State × Except Err Nat :=
  match check_deck_connected s with
  | .error e => (s, .error e)
  | .ok _ =>
    let r := set_buttons_loop env s buttons 0
    (save_state r.1, .ok r.2)

/-- StreamDeckState.create_page. -/
def create_page (s : State) (name : String) : State × Except Err Bool :=
  match validate_page_name name with
  | .error e => (s, .error e)
  | .ok _ =>
    if (alookup s.pages name).isSome then (s, .ok false)
    else (save_state { s with pages := aupsert s.pages name [] }, .ok true)

/-- StreamDeckState.switch_page: membership check, then the current-page
    switch and a full re-render. -/
def switch_page (env : Env) (s : State) (name : String) :
    State × Except Err Bool :=
  if (alookup s.pages name).isNone then (s, .error .UnknownPage)
  else (render_current_page env { s with current_page := name }, .ok true)

/-- StreamDeckState.delete_page. When the deleted page was current, the inner
    switch_page to "main" runs before the save; if it raises (only possible
    when "main" is itself absent), the error propagates after the removals. -/
def delete_page (env : Env) (s : State) (name : String) :
    State × Except Err Bool :=
  if name = "main" then (s, .error .CannotDeleteMain)
  else if (alookup s.pages name).isNone then (s, .error .UnknownPage)
  else
    let s1 := { s with pages := aerase s.pages name,
                       button_callbacks := aerase s.button_callbacks name }
    if s1.current_page = name then
      match switch_page env s1 ("main") with
      | (s2, .error e) => (s2, .error e)
      | (s2, .ok _) => (save_state s2, .ok true)
    else (save_state s1, .ok true)

/-- StreamDeckState.clear_button. -/
def clear_button (s : State) (key : Int) : State × Except Err Bool :=
  match check_deck_connected s with
  | .error e => (s, .error e)
  | .ok _ =>
    match validate_key s key with
    | .error e => (s, .error e)
    | .ok _ =>
      let pages1 :=
        match alookup s.pages s.current_page with
        | some pm =>
          if (alookup pm (toString key)).isSome then
            aupsert s.pages s.current_page (aerase pm (toString key))
          else s.pages
        | none => s.pages
      let cb1 :=
        match alookup s.button_callbacks s.current_page with
        | some bm =>
          if (alookup bm (toString key)).isSome then
            aupsert s.button_callbacks s.current_page (aerase bm (toString key))
          else s.button_callbacks
        | none => s.button_callbacks
      (save_state { s with pages := pages1, button_callbacks := cb1 }, .ok true)

/-- StreamDeckState.clear_all: the current page entry is reset to the empty
    dict (created when absent); the binding entry only when present. -/
def clear_all (s : State) : State × Except Err Nat :=
  match s.deck with
  | none => (s, .error .DeckNotConnected)
  | some d =>
    let pages1 := aupsert s.pages s.current_page []
    let cb1 :=
      if (alookup s.button_callbacks s.current_page).isSome then
        aupsert s.button_callbacks s.current_page []
      else s.button_callbacks
    (save_state { s with pages := pages1, button_callbacks := cb1 },
     .ok d.key_count)

/-- StreamDeckState.set_brightness: clamps to [0, 100]. -/
def set_brightness (s : State) (percent : Int) : State × Except Err Bool :=
  match check_deck_connected s with
  | .error e => (s, .error e)
  | .ok _ => ({ s with brightness := max 0 (min 100 percent) }, .ok true)

/-- StreamDeckState.list_pages. -/
def list_pages (s : State) : List String := s.pages.map Prod.fst

/-- Return value of StreamDeckState.get_button. -/
structure ButtonInfo where
  key : Int
  text : Option String
  image_path : Option String
  bg_color : List Int
  text_color : List Int
  font_size : Int
  action : Option String
deriving DecidableEq

/-- StreamDeckState.get_button: key validation only (no connectivity check),
    then a read of the stored config and binding with defaults; the state is
    not modified (the embedding returns a value only). -/
def get_button (s : State) (key : Int) : Except Err ButtonInfo :=
  match validate_key s key with
  | .error e => .error e
  | .ok _ =>
    let page := (alookup s.pages s.current_page).getD []
    let bc := alookup page (toString key)
    let ab :=
      alookup ((alookup s.button_callbacks s.current_page).getD []) (toString key)
    .ok { key := key,
          text := bc.bind (fun c => c.text),
          image_path := bc.bind (fun c => c.image_path),
          bg_color := (bc.map (fun c => c.bg_color)).getD DEFAULT_BG_COLOR,
          text_color := (bc.map (fun c => c.text_color)).getD DEFAULT_TEXT_COLOR,
          font_size := (bc.map (fun c => c.font_size)).getD 14,
          action := ab.bind (fun b => b.action) }

/-- Environment-determined outcome of one connect() attempt: the device
    enumeration raises, finds nothing, or finds a device whose open sequence
    fails or succeeds. -/
inductive ConnectOutcome where
  | enumFail
  | noDecks
  | openFail (d : Deck)
  | ok (d : Deck)
deriving DecidableEq

/-- StreamDeckState.connect. Enumeration failure and the empty device list
    raise before the attempt counter is touched; a failure while opening the
    device increments the counter and clears the handle, raising the
    exhausted error once the counter reaches the maximum; success resets the
    counter and re-renders the current page. -/
def connect (env : Env) (s : State) (o : ConnectOutcome) :
    State × Except Err Unit :=
  match o with
  | .enumFail => (s, .error .EnumerateFailed)
  | .noDecks => (s, .error .NoDeviceFound)
  | .openFail _ =>
    let s1 := { s with deck := none, connect_attempts := s.connect_attempts + 1 }
    if MAX_RECONNECT_ATTEMPTS ≤ s1.connect_attempts then
      (s1, .error .ConnectionExhausted)
    else (s1, .error .OpenFailed)
  | .ok d =>
    let s1 := { s with deck := some d, connect_attempts := 0 }
    (render_current_page env s1, .ok ())

/-- StreamDeckState.disconnect: teardown failures are swallowed, the handle
    is always released. -/
def disconnect (s : State) : State := { s with deck := none }

/-- The StreamDeckState hardware key callback: a total function on the state
    (the model of never raising outward). Release events return immediately;
    an unbound key or a binding without an action returns immediately; a
    page-prefixed action switches the page with errors caught; otherwise a
    command-typed action is dispatched fire-and-forget (ghost-logged). -/
def key_callback (env : Env) (s : State) (key : Int) (pressed : Bool) : State :=
  if !pressed then s
  else
    match alookup ((alookup s.button_callbacks s.current_page).getD [])
        (toString key) with
    | none => s
    | some bc =>
      match bc.action with
      | none => s
      | some action =>
        if action.startsWith ("page:") then (switch_page env s (action.drop 5)).1
        else if bc.btype.getD ("command") = "command" then
          { s with dispatched := s.dispatched ++ [action] }
        else s

/-- One orchestrator operation: a public method call or a hardware key
    event. -/
inductive Op where
  | connect (o : ConnectOutcome)
  | disconnect
  | set_button_image (key : Int) (image_path text : Option String)
      (bg_color text_color : List Int) (font_size : Int) (sv : Bool)
  | set_button_action (key : Int) (action : String) (action_type : String)
      (sv : Bool)
  | set_buttons (buttons : List BtnSpec)
  | create_page (name : String)
  | switch_page (name : String)
  | delete_page (name : String)
  | clear_button (key : Int)
  | clear_all
  | set_brightness (percent : Int)
  | get_button (key : Int)
  | list_pages
  | get_deck_info
  | key_event (key : Int) (pressed : Bool)

/-- The state after running one operation; errors raise to the caller,
    leaving the state as produced up to the raise. -/
def applyOp (env : Env) (s : State) : Op → State
  | .connect o => (connect env s o).1
  | .disconnect => disconnect s
  | .set_button_image k ip t bg tc fs sv =>
      (set_button_image env s k ip t bg tc fs sv).1
  | .set_button_action k a ty sv => (set_button_action s k a ty sv).1
  | .set_buttons bs => (set_buttons env s bs).1
  | .create_page n => (create_page s n).1
  | .switch_page n => (switch_page env s n).1
  | .delete_page n => (delete_page env s n).1
  | .clear_button k => (clear_button s k).1
  | .clear_all => (clear_all s).1
  | .set_brightness p => (set_brightness s p).1
  | .get_button _ => s
  | .list_pages => s
  | .get_deck_info => s
  | .key_event k p => key_callback env s k p

/-- StreamDeckState construction plus the load-state method: the pages
    document is accepted only when it is a dict containing "main", otherwise
    the default single main page is kept (covering missing and malformed
    files alike); the bindings document is any dict (missing or malformed
    files give the empty dict). -/
def loadState (pd : PagesMap) (bd : BindingsMap) : State :=
  { deck := none, current_page := "main",
    pages := if (alookup pd ("main")).isSome then pd else [("main", [])],
    button_callbacks := bd, brightness := 70, connect_attempts := 0,
    saves := 0, dispatched := [] }

/-- The states reachable from some on-disk contents (Python dicts have
    pairwise distinct keys) through any sequence of orchestrator
    operations, each possibly under a different external world. -/
inductive Reachable : State → Prop where
  | init (pd : PagesMap) (bd : BindingsMap)
      (hpd : (pd.map Prod.fst).Nodup) (hbd : (bd.map Prod.fst).Nodup) :
      Reachable (loadState pd bd)
  | step (env : Env) (s : State) (op : Op) :
      Reachable s → Reachable (applyOp env s op)

/- Association-list lemmas. -/

theorem alookup_aupsert_self {α : Type} (m : List (String × α)) (k : String)
    (v : α) : alookup (aupsert m k v) k = some v := by
  induction m with
  | nil => simp [aupsert, alookup]
  | cons hd tl ih =>
    obtain ⟨k1, v1⟩ := hd
    by_cases h : k1 = k
    · simp [aupsert, h, alookup]
    · simp [aupsert, h, alookup, ih]

theorem alookup_aupsert_ne {α : Type} (m : List (String × α)) (k q : String)
    (v : α) (h : q ≠ k) : alookup (aupsert m k v) q = alookup m q := by
  induction m with
  | nil => simp [aupsert, alookup, Ne.symm h]
  | cons hd tl ih =>
    obtain ⟨k1, v1⟩ := hd
    by_cases h1 : k1 = k
    · subst h1
      simp [aupsert, alookup, Ne.symm h]
    · simp only [aupsert, if_neg h1]
      by_cases h2 : k1 = q
      · simp [alookup, h2]
      · simp [alookup, h2, ih]

theorem alookup_eq_none_iff {α : Type} (m : List (String × α)) (k : String) :
    alookup m k = none ↔ k ∉ m.map Prod.fst := by
  induction m with
  | nil => simp [alookup]
  | cons hd tl ih =>
    obtain ⟨k1, v1⟩ := hd
    by_cases h : k1 = k
    · simp [alookup, h]
    · simp [alookup, h, ih, Ne.symm h]

theorem alookup_aerase_ne {α : Type} (m : List (String × α)) (k q : String)
    (h : q ≠ k) : alookup (aerase m k) q = alookup m q := by
  induction m with
  | nil => simp [aerase]
  | cons hd tl ih =>
    obtain ⟨k1, v1⟩ := hd
    by_cases h1 : k1 = k
    · subst h1
      simp [aerase, alookup, Ne.symm h]
    · simp only [aerase, if_neg h1]
      by_cases h2 : k1 = q
      · simp [alookup, h2]
      · simp [alookup, h2, ih]

theorem alookup_aerase_self {α : Type} (m : List (String × α)) (k : String)
    (h : (m.map Prod.fst).Nodup) : alookup (aerase m k) k = none := by
  induction m with
  | nil => simp [aerase, alookup]
  | cons hd tl ih =>
    obtain ⟨k1, v1⟩ := hd
    simp only [List.map_cons, List.nodup_cons] at h
    by_cases h1 : k1 = k
    · subst h1
      simp only [aerase, if_pos rfl]
      exact (alookup_eq_none_iff tl k1).mpr h.1
    · simp [aerase, h1, alookup, ih h.2]

theorem mem_keys_aupsert {α : Type} (m : List (String × α)) (k q : String)
    (v : α) : q ∈ (aupsert m k v).map Prod.fst ↔ q ∈ m.map Prod.fst ∨ q = k := by
  induction m with
  | nil => simp [aupsert]
  | cons hd tl ih =>
    obtain ⟨k1, v1⟩ := hd
    by_cases h : k1 = k
    · subst h
      simp [aupsert]
      tauto
    · simp [aupsert, h, ih]
      tauto

theorem nodup_keys_aupsert {α : Type} (m : List (String × α)) (k : String)
    (v : α) (h : (m.map Prod.fst).Nodup) :
    ((aupsert m k v).map Prod.fst).Nodup := by
  induction m with
  | nil => simp [aupsert]
  | cons hd tl ih =>
    obtain ⟨k1, v1⟩ := hd
    simp only [List.map_cons, List.nodup_cons] at h
    by_cases h1 : k1 = k
    · subst h1
      simpa [aupsert] using h
    · simp only [aupsert, if_neg h1, List.map_cons, List.nodup_cons]
      refine ⟨?_, ih h.2⟩
      intro hmem
      rcases (mem_keys_aupsert tl k k1 v).mp hmem with h2 | h2
      · exact h.1 h2
      · exact h1 h2

theorem keys_aerase_sublist {α : Type} (m : List (String × α)) (k : String) :
    ((aerase m k).map Prod.fst).Sublist (m.map Prod.fst) := by
  induction m with
  | nil => simp [aerase]
  | cons hd tl ih =>
    obtain ⟨k1, v1⟩ := hd
    by_cases h1 : k1 = k
    · simp only [aerase, if_pos h1, List.map_cons]
      exact List.Sublist.cons _ (List.Sublist.refl _)
    · simp only [aerase, if_neg h1, List.map_cons]
      exact List.Sublist.cons₂ _ ih

theorem nodup_keys_aerase {α : Type} (m : List (String × α)) (k : String)
    (h : (m.map Prod.fst).Nodup) : ((aerase m k).map Prod.fst).Nodup :=
  h.sublist (keys_aerase_sublist m k)

theorem aupsert_of_lookup_none {α : Type} (m : List (String × α)) (k : String)
    (v : α) (h : alookup m k = none) : aupsert m k v = m ++ [(k, v)] := by
  induction m with
  | nil => simp [aupsert]
  | cons hd tl ih =>
    obtain ⟨k1, v1⟩ := hd
    simp only [alookup] at h
    by_cases h1 : k1 = k
    · simp [h1] at h
    · simp only [if_neg h1] at h
      simp [aupsert, h1, ih h]

theorem countP_key_eq_zero {α : Type} (m : List (String × α)) (k : String)
    (h : alookup m k = none) :
    m.countP (fun kv => kv.1 == k) = 0 := by
  induction m with
  | nil => simp
  | cons hd tl ih =>
    obtain ⟨k1, v1⟩ := hd
    simp only [alookup] at h
    by_cases h1 : k1 = k
    · simp [h1] at h
    · simp only [if_neg h1] at h
      simp [List.countP_cons, ih h, h1]

/- Characterizations of the validators. -/

/-- Boolean characterization of an RGB list accepted by validate_color. -/
def colorOk (c : List Int) : Bool :=
  c.length == 3 && c.all (fun v => decide (0 ≤ v) && decide (v ≤ 255))

theorem validateComponents_eq (c : List Int) :
    validateComponents c =
      (if c.all (fun v => decide (0 ≤ v) && decide (v ≤ 255)) then .ok c
       else .error .InvalidColor) := by
  induction c with
  | nil => simp [validateComponents]
  | cons v rest ih =>
    simp only [validateComponents, List.all_cons]
    by_cases hv : v < 0 || 255 < v
    · have h1 : (decide (0 ≤ v) && decide (v ≤ 255)) = false := by
        simp at hv ⊢
        omega
      simp [hv, h1]
    · have h1 : (decide (0 ≤ v) && decide (v ≤ 255)) = true := by
        simp at hv ⊢
        omega
      rw [if_neg hv, ih]
      by_cases h2 : rest.all (fun v => decide (0 ≤ v) && decide (v ≤ 255))
      · simp [h1, h2]
      · simp [h1, h2]

theorem validate_color_eq (c : List Int) :
    validate_color c = (if colorOk c then .ok c else .error .InvalidColor) := by
  unfold validate_color colorOk
  by_cases h : c.length = 3
  · simp [h, validateComponents_eq]
  · simp [h]

/-- Boolean characterization of a key accepted by validate_key. -/
def keyOk (s : State) (key : Int) : Bool :=
  decide (0 ≤ key) &&
    (match s.deck with
     | none => true
     | some d => decide (key < (d.key_count : Int)))

theorem validate_key_eq (s : State) (key : Int) :
    validate_key s key = (if keyOk s key then .ok () else .error .InvalidKey) := by
  unfold validate_key keyOk
  by_cases hk : key < 0
  · have h0 : ¬ (0 ≤ key) := by omega
    simp [hk, h0]
  · have h0 : (0 ≤ key) := by omega
    rw [if_neg hk]
    cases hd : s.deck with
    | none => simp [h0]
    | some d =>
      by_cases h1 : (d.key_count : Int) ≤ key
      · have h2 : ¬ (key < (d.key_count : Int)) := by omega
        simp [h1, h0, h2]
      · have h2 : (key < (d.key_count : Int)) := by omega
        simp [h1, h0, h2]

/- The runtime invariant of the store and its preservation. -/

/-- The store invariant: the main page exists, the current page exists, and
    both top-level maps have pairwise distinct keys (as Python dicts do). -/
def Inv (s : State) : Prop :=
  (alookup s.pages ("main")).isSome = true ∧
  (alookup s.pages s.current_page).isSome = true ∧
  (s.pages.map Prod.fst).Nodup ∧
  (s.button_callbacks.map Prod.fst).Nodup

theorem inv_save_state (s : State) : Inv (save_state s) ↔ Inv s := by
  simp [Inv, save_state]

theorem inv_pages_upsert_current (s : State) (pm : PageMap) (h : Inv s) :
    Inv { s with pages := aupsert s.pages s.current_page pm } := by
  obtain ⟨h1, h2, h3, h4⟩ := h
  refine ⟨?_, ?_, nodup_keys_aupsert _ _ _ h3, h4⟩
  · show (alookup (aupsert s.pages s.current_page pm) ("main")).isSome = true
    by_cases hm : ("main" : String) = s.current_page
    · rw [hm, alookup_aupsert_self]
      rfl
    · rw [alookup_aupsert_ne _ _ _ _ hm]
      exact h1
  · show (alookup (aupsert s.pages s.current_page pm) s.current_page).isSome = true
    rw [alookup_aupsert_self]
    rfl

theorem inv_cb_upsert_current (s : State) (bm : BindPage) (h : Inv s) :
    Inv { s with button_callbacks := aupsert s.button_callbacks s.current_page bm } := by
  obtain ⟨h1, h2, h3, h4⟩ := h
  exact ⟨h1, h2, h3, nodup_keys_aupsert _ _ _ h4⟩

theorem sbi_inv (env : Env) (s : State) (key : Int) (ip t : Option String)
    (bg tc : List Int) (fs : Int) (sv : Bool) (h : Inv s) :
    Inv (set_button_image env s key ip t bg tc fs sv).1 := by
  unfold set_button_image
  split
  · exact h
  · split
    · exact h
    · split
      · exact h
      · split
        · exact h
        · cases sv
          · simpa using inv_pages_upsert_current s _ h
          · simpa [inv_save_state] using inv_pages_upsert_current s _ h

theorem sba_inv (s : State) (key : Int) (a ty : String) (sv : Bool)
    (h : Inv s) : Inv (set_button_action s key a ty sv).1 := by
  unfold set_button_action
  split
  · exact h
  · split
    · exact h
    · cases sv
      · simpa using inv_cb_upsert_current s _ h
      · simpa [inv_save_state] using inv_cb_upsert_current s _ h

/- Frame lemmas: which fields each operation can touch. -/

theorem sbi_frame (env : Env) (s : State) (key : Int) (ip t : Option String)
    (bg tc : List Int) (fs : Int) (sv : Bool) :
    (set_button_image env s key ip t bg tc fs sv).1.deck = s.deck ∧
    (set_button_image env s key ip t bg tc fs sv).1.current_page = s.current_page ∧
    (set_button_image env s key ip t bg tc fs sv).1.button_callbacks = s.button_callbacks ∧
    (set_button_image env s key ip t bg tc fs sv).1.connect_attempts = s.connect_attempts ∧
    (set_button_image env s key ip t bg tc fs sv).1.brightness = s.brightness ∧
    (set_button_image env s key ip t bg tc fs sv).1.dispatched = s.dispatched := by
  unfold set_button_image
  split
  · simp
  · split
    · simp
    · split
      · simp
      · split
        · simp
        · cases sv <;> simp [save_state]

theorem sbi_saves_off (env : Env) (s : State) (key : Int) (ip t : Option String)
    (bg tc : List Int) (fs : Int) :
    (set_button_image env s key ip t bg tc fs false).1.saves = s.saves := by
  unfold set_button_image
  split
  · simp
  · split
    · simp
    · split
      · simp
      · split
        · simp
        · simp

theorem sbi_pages_ne (env : Env) (s : State) (key : Int) (ip t : Option String)
    (bg tc : List Int) (fs : Int) (sv : Bool) (q : String)
    (hq : q ≠ s.current_page) :
    alookup (set_button_image env s key ip t bg tc fs sv).1.pages q =
      alookup s.pages q := by
  unfold set_button_image
  split
  · simp
  · split
    · simp
    · split
      · simp
      · split
        · simp
        · cases sv <;> simp [save_state, alookup_aupsert_ne _ _ _ _ hq]

theorem sba_frame (s : State) (key : Int) (a ty : String) (sv : Bool) :
    (set_button_action s key a ty sv).1.deck = s.deck ∧
    (set_button_action s key a ty sv).1.current_page = s.current_page ∧
    (set_button_action s key a ty sv).1.pages = s.pages ∧
    (set_button_action s key a ty sv).1.connect_attempts = s.connect_attempts ∧
    (set_button_action s key a ty sv).1.brightness = s.brightness ∧
    (set_button_action s key a ty sv).1.dispatched = s.dispatched := by
  unfold set_button_action
  split
  · simp
  · split
    · simp
    · cases sv <;> simp [save_state]

theorem sba_saves_off (s : State) (key : Int) (a ty : String) :
    (set_button_action s key a ty false).1.saves = s.saves := by
  unfold set_button_action
  split
  · simp
  · split
    · simp
    · simp

theorem sba_cb_ne (s : State) (key : Int) (a ty : String) (sv : Bool)
    (q : String) (hq : q ≠ s.current_page) :
    alookup (set_button_action s key a ty sv).1.button_callbacks q =
      alookup s.button_callbacks q := by
  unfold set_button_action
  split
  · simp
  · split
    · simp
    · cases sv <;> simp [save_state, alookup_aupsert_ne _ _ _ _ hq]

/- The render loop: invariant preservation and frames. -/

theorem renderLoop_inv (env : Env) (l : List (String × ButtonConfig))
    (s : State) (h : Inv s) : Inv (renderLoop env s l) := by
  induction l generalizing s with
  | nil => exact h
  | cons hd tl ih =>
    obtain ⟨keyStr, cfg⟩ := hd
    unfold renderLoop
    split
    · exact ih s h
    · exact ih _ (sbi_inv env s _ _ _ _ _ _ _ h)

theorem renderLoop_frame (env : Env) (l : List (String × ButtonConfig))
    (s : State) :
    (renderLoop env s l).deck = s.deck ∧
    (renderLoop env s l).current_page = s.current_page ∧
    (renderLoop env s l).button_callbacks = s.button_callbacks ∧
    (renderLoop env s l).connect_attempts = s.connect_attempts ∧
    (renderLoop env s l).brightness = s.brightness ∧
    (renderLoop env s l).dispatched = s.dispatched := by
  induction l generalizing s with
  | nil => simp [renderLoop]
  | cons hd tl ih =>
    obtain ⟨keyStr, cfg⟩ := hd
    unfold renderLoop
    split
    · exact ih s
    · next key heq =>
      have h1 := sbi_frame env s key cfg.image_path cfg.text cfg.bg_color
        cfg.text_color cfg.font_size true
      have h2 := ih (set_button_image env s key cfg.image_path cfg.text
        cfg.bg_color cfg.text_color cfg.font_size true).1
      exact ⟨h2.1.trans h1.1, h2.2.1.trans h1.2.1, h2.2.2.1.trans h1.2.2.1,
        h2.2.2.2.1.trans h1.2.2.2.1, h2.2.2.2.2.1.trans h1.2.2.2.2.1,
        h2.2.2.2.2.2.trans h1.2.2.2.2.2⟩

theorem renderLoop_pages_ne (env : Env) (l : List (String × ButtonConfig))
    (s : State) (q : String) (hq : q ≠ s.current_page) :
    alookup (renderLoop env s l).pages q = alookup s.pages q := by
  induction l generalizing s with
  | nil => simp [renderLoop]
  | cons hd tl ih =>
    obtain ⟨keyStr, cfg⟩ := hd
    unfold renderLoop
    split
    · exact ih s hq
    · next key heq =>
      have h1 := sbi_frame env s key cfg.image_path cfg.text cfg.bg_color
        cfg.text_color cfg.font_size true
      have h2 := ih (set_button_image env s key cfg.image_path cfg.text
        cfg.bg_color cfg.text_color cfg.font_size true).1
        (by rw [h1.2.1]; exact hq)
      rw [h2]
      exact sbi_pages_ne env s key cfg.image_path cfg.text cfg.bg_color
        cfg.text_color cfg.font_size true q hq

theorem render_inv (env : Env) (s : State) (h : Inv s) :
    Inv (render_current_page env s) := by
  unfold render_current_page
  split
  · exact h
  · exact renderLoop_inv env _ s h

theorem render_frame (env : Env) (s : State) :
    (render_current_page env s).deck = s.deck ∧
    (render_current_page env s).current_page = s.current_page ∧
    (render_current_page env s).button_callbacks = s.button_callbacks ∧
    (render_current_page env s).connect_attempts = s.connect_attempts ∧
    (render_current_page env s).brightness = s.brightness ∧
    (render_current_page env s).dispatched = s.dispatched := by
  unfold render_current_page
  split
  · simp
  · exact renderLoop_frame env _ s

theorem render_pages_ne (env : Env) (s : State) (q : String)
    (hq : q ≠ s.current_page) :
    alookup (render_current_page env s).pages q = alookup s.pages q := by
  unfold render_current_page
  split
  · rfl
  · exact renderLoop_pages_ne env _ s q hq

theorem isNone_false_of_isSome {α : Type} (o : Option α) (h : o.isSome = true) :
    o.isNone = false := by
  cases o
  · simp at h
  · rfl

/-- Equation for switch_page on an existing page. -/
theorem switch_page_ok (env : Env) (s : State) (name : String)
    (hname : (alookup s.pages name).isSome = true) :
    switch_page env s name =
      (render_current_page env { s with current_page := name }, .ok true) := by
  unfold switch_page
  rw [if_neg]
  simp [isNone_false_of_isSome _ hname]

theorem switch_page_inv (env : Env) (s : State) (name : String) (h : Inv s) :
    Inv (switch_page env s name).1 := by
  unfold switch_page
  split
  · exact h
  · next hn =>
    apply render_inv
    obtain ⟨h1, h2, h3, h4⟩ := h
    refine ⟨h1, ?_, h3, h4⟩
    show (alookup s.pages name).isSome = true
    cases hx : alookup s.pages name
    · rw [hx] at hn
      simp at hn
    · rfl

theorem create_page_inv (s : State) (name : String) (h : Inv s) :
    Inv (create_page s name).1 := by
  unfold create_page
  split
  · exact h
  · split
    · exact h
    · next hn =>
      obtain ⟨h1, h2, h3, h4⟩ := h
      have hnone : alookup s.pages name = none := by
        cases hx : alookup s.pages name
        · rfl
        · rw [hx] at hn
          simp at hn
      have hm : ("main" : String) ≠ name := by
        intro e
        rw [e] at h1
        rw [hnone] at h1
        simp at h1
      have hc : s.current_page ≠ name := by
        intro e
        rw [e] at h2
        rw [hnone] at h2
        simp at h2
      rw [inv_save_state]
      refine ⟨?_, ?_, nodup_keys_aupsert _ _ _ h3, h4⟩
      · show (alookup (aupsert s.pages name []) ("main")).isSome = true
        rw [alookup_aupsert_ne _ _ _ _ hm]
        exact h1
      · show (alookup (aupsert s.pages name []) s.current_page).isSome = true
        rw [alookup_aupsert_ne _ _ _ _ hc]
        exact h2

theorem delete_page_inv (env : Env) (s : State) (name : String) (h : Inv s) :
    Inv (delete_page env s name).1 := by
  unfold delete_page
  split
  · exact h
  · split
    · exact h
    · next hne hn =>
      obtain ⟨h1, h2, h3, h4⟩ := h
      have hpm : ("main" : String) ≠ name := fun e => hne e.symm
      have hmain1 : (alookup (aerase s.pages name) ("main")).isSome = true := by
        rw [alookup_aerase_ne _ _ _ hpm]
        exact h1
      have h3' := nodup_keys_aerase s.pages name h3
      have h4' := nodup_keys_aerase s.button_callbacks name h4
      dsimp only
      split
      · next hcur =>
        rw [switch_page_ok env _ ("main") hmain1]
        dsimp only
        rw [inv_save_state]
        apply render_inv
        exact ⟨hmain1, hmain1, h3', h4'⟩
      · next hcur =>
        rw [inv_save_state]
        refine ⟨hmain1, ?_, h3', h4'⟩
        show (alookup (aerase s.pages name) s.current_page).isSome = true
        rw [alookup_aerase_ne _ _ _ hcur]
        exact h2

theorem clear_button_core (s : State) (h : Inv s) (pm : PagesMap)
    (cb : BindingsMap)
    (hpm : pm = s.pages ∨ ∃ x, pm = aupsert s.pages s.current_page x)
    (hcb : cb = s.button_callbacks ∨
      ∃ x, cb = aupsert s.button_callbacks s.current_page x) :
    Inv (save_state { s with pages := pm, button_callbacks := cb }) := by
  rw [inv_save_state]
  obtain ⟨h1, h2, h3, h4⟩ := h
  have hcb' : (cb.map Prod.fst).Nodup := by
    rcases hcb with rfl | ⟨x, rfl⟩
    · exact h4
    · exact nodup_keys_aupsert _ _ _ h4
  rcases hpm with rfl | ⟨x, rfl⟩
  · exact ⟨h1, h2, h3, hcb'⟩
  · refine ⟨?_, ?_, nodup_keys_aupsert _ _ _ h3, hcb'⟩
    · show (alookup (aupsert s.pages s.current_page x) ("main")).isSome = true
      by_cases hm : ("main" : String) = s.current_page
      · rw [hm, alookup_aupsert_self]
        rfl
      · rw [alookup_aupsert_ne _ _ _ _ hm]
        exact h1
    · show (alookup (aupsert s.pages s.current_page x) s.current_page).isSome = true
      rw [alookup_aupsert_self]
      rfl

theorem clear_button_inv (s : State) (key : Int) (h : Inv s) :
    Inv (clear_button s key).1 := by
  unfold clear_button
  split
  · exact h
  · split
    · exact h
    · dsimp only
      refine clear_button_core s h _ _ ?_ ?_
      · split
        · split
          · exact Or.inr ⟨_, rfl⟩
          · exact Or.inl rfl
        · exact Or.inl rfl
      · split
        · split
          · exact Or.inr ⟨_, rfl⟩
          · exact Or.inl rfl
        · exact Or.inl rfl

theorem clear_all_inv (s : State) (h : Inv s) : Inv (clear_all s).1 := by
  unfold clear_all
  split
  · exact h
  · rw [inv_save_state]
    obtain ⟨h1, h2, h3, h4⟩ := h
    refine ⟨?_, ?_, nodup_keys_aupsert _ _ _ h3, ?_⟩
    · show (alookup (aupsert s.pages s.current_page []) ("main")).isSome = true
      by_cases hm : ("main" : String) = s.current_page
      · rw [hm, alookup_aupsert_self]
        rfl
      · rw [alookup_aupsert_ne _ _ _ _ hm]
        exact h1
    · show (alookup (aupsert s.pages s.current_page []) s.current_page).isSome = true
      rw [alookup_aupsert_self]
      rfl
    · split
      · exact nodup_keys_aupsert _ _ _ h4
      · exact h4

theorem set_brightness_inv (s : State) (p : Int) (h : Inv s) :
    Inv (set_brightness s p).1 := by
  unfold set_brightness
  split
  · exact h
  · exact h

theorem connect_inv (env : Env) (s : State) (o : ConnectOutcome) (h : Inv s) :
    Inv (connect env s o).1 := by
  cases o with
  | enumFail => exact h
  | noDecks => exact h
  | openFail d =>
    unfold connect
    dsimp only
    split
    · exact h
    · exact h
  | ok d => exact render_inv env _ h

theorem key_callback_inv (env : Env) (s : State) (key : Int) (pressed : Bool)
    (h : Inv s) : Inv (key_callback env s key pressed) := by
  unfold key_callback
  split
  · exact h
  · split
    · exact h
    · split
      · exact h
      · split
        · exact switch_page_inv env s _ h
        · split
          · exact h
          · exact h

theorem set_buttons_loop_inv (env : Env) (l : List BtnSpec) (s : State)
    (n : Nat) (h : Inv s) : Inv (set_buttons_loop env s l n).1 := by
  induction l generalizing s n with
  | nil => exact h
  | cons btn rest ih =>
    unfold set_buttons_loop
    split
    · exact ih s n h
    · next key hkeq =>
      have hs1 := sbi_inv env s key btn.image_path btn.text
        (btn.bg_color.getD DEFAULT_BG_COLOR)
        (btn.text_color.getD DEFAULT_TEXT_COLOR) (btn.font_size.getD 14) false h
      split
      · next s1 e heq =>
        rw [heq] at hs1
        exact ih s1 n hs1
      · next s1 b heq =>
        rw [heq] at hs1
        split
        · exact ih s1 (n + 1) hs1
        · next a hae =>
          have hs2 := sba_inv s1 key a ("command") false hs1
          split
          · next s2 e heq2 =>
            rw [heq2] at hs2
            exact ih s2 n hs2
          · next s2 b2 heq2 =>
            rw [heq2] at hs2
            exact ih s2 (n + 1) hs2

theorem set_buttons_inv (env : Env) (s : State) (l : List BtnSpec)
    (h : Inv s) : Inv (set_buttons env s l).1 := by
  unfold set_buttons
  split
  · exact h
  · rw [inv_save_state]
    exact set_buttons_loop_inv env l s 0 h

theorem applyOp_inv (env : Env) (s : State) (op : Op) (h : Inv s) :
    Inv (applyOp env s op) := by
  cases op with
  | connect o => exact connect_inv env s o h
  | disconnect => exact h
  | set_button_image k ip t bg tc fs sv => exact sbi_inv env s k ip t bg tc fs sv h
  | set_button_action k a ty sv => exact sba_inv s k a ty sv h
  | set_buttons bs => exact set_buttons_inv env s bs h
  | create_page n => exact create_page_inv s n h
  | switch_page n => exact switch_page_inv env s n h
  | delete_page n => exact delete_page_inv env s n h
  | clear_button k => exact clear_button_inv s k h
  | clear_all => exact clear_all_inv s h
  | set_brightness p => exact set_brightness_inv s p h
  | get_button _ => exact h
  | list_pages => exact h
  | get_deck_info => exact h
  | key_event k p => exact key_callback_inv env s k p h

theorem loadState_inv (pd : PagesMap) (bd : BindingsMap)
    (hpd : (pd.map Prod.fst).Nodup) (hbd : (bd.map Prod.fst).Nodup) :
    Inv (loadState pd bd) := by
  unfold loadState
  by_cases h : (alookup pd ("main")).isSome = true
  · rw [if_pos h]
    exact ⟨h, h, hpd, hbd⟩
  · rw [if_neg h]
    refine ⟨?_, ?_, ?_, hbd⟩
    · simp [alookup]
    · simp [alookup]
    · simp

theorem reachable_inv (s : State) (h : Reachable s) : Inv s := by
  induction h with
  | init pd bd hpd hbd => exact loadState_inv pd bd hpd hbd
  | step env s op _ ih => exact applyOp_inv env s op ih

theorem save_state_pages (s : State) : (save_state s).pages = s.pages := rfl

theorem save_state_cb (s : State) :
    (save_state s).button_callbacks = s.button_callbacks := rfl

theorem save_state_current (s : State) :
    (save_state s).current_page = s.current_page := rfl

/- Concrete states used to instantiate the theorems. -/

/-- A world with no image files on disk. -/
def env0 : Env := ⟨fun _ => false⟩

/-- The state after a fresh start with the default single main page. -/
def state0 : State := loadState [("main", [])] []

theorem state0_reachable : Reachable state0 :=
  Reachable.init [("main", [])] [] (by simp) (by simp)

/-- C1: at every reachable state the page "main" is a member of pages; and at
    every state whatsoever, delete_page "main" fails with CannotDeleteMain,
    returning the state unchanged (pages, bindings, current page and all). -/
theorem C1_main_page_invariant (s : State) (h : Reachable s) :
    (alookup s.pages ("main")).isSome = true ∧
    ∀ (env : Env) (s2 : State),
      delete_page env s2 ("main") = (s2, .error .CannotDeleteMain) := by
  refine ⟨(reachable_inv s h).1, ?_⟩
  intro env s2
  unfold delete_page
  rw [if_pos rfl]

theorem C1_witness :
    (alookup state0.pages ("main")).isSome = true ∧
    delete_page env0 state0 ("main") = (state0, .error .CannotDeleteMain) :=
  ⟨(C1_main_page_invariant state0 state0_reachable).1,
   (C1_main_page_invariant state0 state0_reachable).2 env0 state0⟩

/-- C2: deleting an existing page other than main succeeds, removes the page
    and its action bindings, and sets the current page to main exactly when
    the deleted page was current; moreover at every reachable state the
    current page is a member of pages. -/
theorem C2_delete_page (env : Env) (s : State) (p : String)
    (hr : Reachable s) (hp : (alookup s.pages p).isSome = true)
    (hne : p ≠ "main") :
    (delete_page env s p).2 = .ok true ∧
    alookup (delete_page env s p).1.pages p = none ∧
    alookup (delete_page env s p).1.button_callbacks p = none ∧
    (delete_page env s p).1.current_page =
      (if s.current_page = p then "main" else s.current_page) ∧
    (∀ s2 : State, Reachable s2 →
      (alookup s2.pages s2.current_page).isSome = true) := by
  obtain ⟨h1, h2, h3, h4⟩ := reachable_inv s hr
  have hinv : ∀ s2 : State, Reachable s2 →
      (alookup s2.pages s2.current_page).isSome = true :=
    fun s2 hr2 => (reachable_inv s2 hr2).2.1
  unfold delete_page
  rw [if_neg hne, if_neg (by simp [isNone_false_of_isSome _ hp])]
  dsimp only
  have hpm : ("main" : String) ≠ p := fun e => hne e.symm
  have hmain1 : (alookup (aerase s.pages p) ("main")).isSome = true := by
    rw [alookup_aerase_ne _ _ _ hpm]
    exact h1
  by_cases hc : s.current_page = p
  · rw [if_pos hc]
    rw [switch_page_ok env _ ("main") hmain1]
    dsimp only
    refine ⟨rfl, ?_, ?_, ?_, hinv⟩
    · rw [save_state_pages, render_pages_ne]
      · exact alookup_aerase_self _ _ h3
      · exact hne
    · rw [save_state_cb, (render_frame env _).2.2.1]
      exact alookup_aerase_self _ _ h4
    · rw [if_pos hc, save_state_current, (render_frame env _).2.1]
  · rw [if_neg hc]
    refine ⟨rfl, alookup_aerase_self _ _ h3, alookup_aerase_self _ _ h4, ?_,
      hinv⟩
    rw [if_neg hc]
    rfl

/-- The state after create_page "gaming" then switch_page "gaming" from a
    fresh start, mirroring the example of the spec. -/
def gamingState : State :=
  applyOp env0 (applyOp env0 state0 (Op.create_page ("gaming")))
    (Op.switch_page ("gaming"))

theorem gamingState_reachable : Reachable gamingState :=
  Reachable.step env0 _ _ (Reachable.step env0 _ _ state0_reachable)

theorem C2_witness :
    (delete_page env0 gamingState ("gaming")).2 = .ok true ∧
    alookup (delete_page env0 gamingState ("gaming")).1.pages ("gaming") = none ∧
    alookup (delete_page env0 gamingState ("gaming")).1.button_callbacks
      ("gaming") = none ∧
    (delete_page env0 gamingState ("gaming")).1.current_page = "main" := by
  have h := C2_delete_page env0 gamingState ("gaming") gamingState_reachable
    (by decide) (by decide)
  refine ⟨h.1, h.2.1, h.2.2.1, ?_⟩
  rw [h.2.2.2.1]
  decide

/-- C3: the hardware key callback is a total function on states (no outward
    raise in the model); a release event, and a press on a key whose binding
    entry is absent or carries no action on the current page, leaves the
    state exactly unchanged: no page switch, no dispatched command, no other
    state change. -/
theorem C3_key_callback_noop (env : Env) (s : State) (key : Int)
    (pressed : Bool)
    (h : pressed = false ∨
      ∀ bc, alookup ((alookup s.button_callbacks s.current_page).getD [])
        (toString key) = some bc → bc.action = none) :
    key_callback env s key pressed = s := by
  unfold key_callback
  rcases h with rfl | hb
  · simp
  · cases pressed
    · simp
    · rw [if_neg (by simp)]
      split

      · rfl
      · next bc heq =>
        rw [hb bc heq]

theorem C3_witness : key_callback env0 state0 5 true = state0 :=
  C3_key_callback_noop env0 state0 5 true
    (Or.inr (by
      intro bc hbc
      simp [state0, loadState, alookup] at hbc))

/-- C4: switching to a name that is not a page fails with UnknownPage and
    returns the state exactly unchanged (current page, pages, bindings and
    all other fields). -/
theorem C4_switch_page_unknown (env : Env) (s : State) (name : String)
    (h : alookup s.pages name = none) :
    switch_page env s name = (s, .error .UnknownPage) := by
  unfold switch_page
  rw [if_pos (by rw [h]; rfl)]

theorem C4_witness :
    switch_page env0 state0 ("missing") = (state0, .error .UnknownPage) :=
  C4_switch_page_unknown env0 state0 ("missing") (by decide)

/-- C7: from any state without a page "gaming", create_page "gaming" returns
    true; a second create_page "gaming" returns false and leaves the whole
    state (pages included) unchanged; and pages then holds exactly one
    "gaming" entry. -/
theorem C7_create_page_twice (s : State)
    (h : alookup s.pages ("gaming") = none) :
    (create_page s ("gaming")).2 = .ok true ∧
    create_page (create_page s ("gaming")).1 ("gaming") =
      ((create_page s ("gaming")).1, .ok false) ∧
    (create_page s ("gaming")).1.pages.countP (fun kv => kv.1 == "gaming") = 1 := by
  have hv : validate_page_name ("gaming") = .ok () := rfl
  unfold create_page
  rw [hv]
  dsimp only
  rw [if_neg (by rw [h]; simp)]
  dsimp only
  refine ⟨rfl, ?_, ?_⟩
  · rw [if_pos]
    show (alookup (aupsert s.pages ("gaming") []) ("gaming")).isSome = true
    rw [alookup_aupsert_self]
    rfl
  · show (aupsert s.pages ("gaming") []).countP (fun kv => kv.1 == "gaming") = 1
    rw [aupsert_of_lookup_none _ _ _ h, List.countP_append,
      countP_key_eq_zero _ _ h]
    rfl

theorem C7_witness :
    (create_page state0 ("gaming")).2 = .ok true ∧
    create_page (create_page state0 ("gaming")).1 ("gaming") =
      ((create_page state0 ("gaming")).1, .ok false) ∧
    (create_page state0 ("gaming")).1.pages.countP
      (fun kv => kv.1 == "gaming") = 1 :=
  C7_create_page_twice state0 (by decide)

/-- C10: for a valid key (non-negative, below the key count when a deck is
    connected, in either connection state) with no stored config and no
    action binding on the current page, get_button succeeds and returns the
    defaults: no text, no image path, black background, white text, font
    size 14, no action; the embedding is read-only, no state is modified. -/
theorem C10_get_button_defaults (s : State) (key : Int)
    (hk : keyOk s key = true)
    (hc : alookup ((alookup s.pages s.current_page).getD [])
      (toString key) = none)
    (hb : alookup ((alookup s.button_callbacks s.current_page).getD [])
      (toString key) = none) :
    get_button s key =
      .ok { key := key, text := none, image_path := none,
            bg_color := [0, 0, 0], text_color := [255, 255, 255],
            font_size := 14, action := none } := by
  unfold get_button
  rw [validate_key_eq, if_pos hk]
  dsimp only
  rw [hc, hb]
  rfl

theorem C10_witness :
    get_button state0 5 =
      .ok { key := 5, text := none, image_path := none,
            bg_color := [0, 0, 0], text_color := [255, 255, 255],
            font_size := 14, action := none } :=
  C10_get_button_defaults state0 5 (by decide) (by decide) (by decide)

/-- The page-name character class as the spec words it: letters, digits,
    underscore, hyphen, space (stated from the spec for comparison with the
    class the code compiles). -/
def specPageNameChar (c : Char) : Bool :=
  (0x61 ≤ c.toNat && c.toNat ≤ 0x7a) ||
  (0x41 ≤ c.toNat && c.toNat ≤ 0x5a) ||
  (0x30 ≤ c.toNat && c.toNat ≤ 0x39) ||
  c.toNat == 0x5f || c.toNat == 0x2d || c.toNat == 0x20

theorem pageNameChar_eq (c : Char) :
    isPageNameChar c = (specPageNameChar c || isPyWhitespace c) := by
  unfold isPageNameChar specPageNameChar
  by_cases h : c.toNat = 0x20
  · have hw : isPyWhitespace c = true := by
      unfold isPyWhitespace
      rw [h]
      rfl
    simp [hw]
  · have hs : (c.toNat == 0x20) = false := by simp [h]
    simp only [hs, Bool.or_false, Bool.or_assoc]

/-- C8 counterexample: the string of "a", tab, "b" contains a character
    outside the claimed class (letters, digits, underscore, hyphen, space),
    yet validate_page_name accepts it: the compiled pattern's whitespace
    class also matches tab (and other whitespace), so the claim's "exactly"
    fails. -/
theorem C8_counterexample :
    validate_page_name ("a\tb") = .ok () ∧
    ("a\tb").toList.all specPageNameChar = false :=
  ⟨rfl, rfl⟩

/-- C8 (amended): validate_page_name succeeds exactly for strings of length
    1 to 50 all of whose characters are letters, digits, underscore, hyphen,
    or a character of the pattern's whitespace class (space, tab, newline and
    the other Unicode whitespace characters — strictly more than the space
    character alone); every other string fails with InvalidPageName. -/
theorem C8_validate_page_name (name : String) :
    validate_page_name name =
      (if (decide (1 ≤ name.length) && decide (name.length ≤ 50) &&
           name.toList.all (fun c => specPageNameChar c || isPyWhitespace c))
       then .ok () else .error .InvalidPageName) := by
  unfold validate_page_name
  by_cases h1 : name.isEmpty
  · rw [if_pos h1]
    have hname : name = "" := (String.isEmpty_iff name).mp h1
    subst hname
    rfl
  · rw [if_neg h1]
    have hlen : 1 ≤ name.length := by
      by_contra hcon
      push_neg at hcon
      have hd : name.data.length = 0 := by
        rw [String.length_data]
        omega
      have hname : name = "" := String.ext (List.length_eq_zero.mp hd)
      exact h1 (by rw [hname]; rfl)
    have hd1 : decide (1 ≤ name.length) = true := by simp [hlen]
    by_cases h2 : name.length > MAX_PAGE_NAME_LENGTH
    · rw [if_pos h2]
      have hd2 : decide (name.length ≤ 50) = false := by
        simp only [decide_eq_false_iff_not]
        unfold MAX_PAGE_NAME_LENGTH at h2
        omega
      rw [hd2]
      simp
    · rw [if_neg h2]
      have hd2 : decide (name.length ≤ 50) = true := by
        simp only [decide_eq_true_eq]
        unfold MAX_PAGE_NAME_LENGTH at h2
        omega
      have hfun : isPageNameChar =
          (fun c => specPageNameChar c || isPyWhitespace c) :=
        funext pageNameChar_eq
      by_cases h3 : name.toList.all isPageNameChar
      · rw [if_pos h3]
        rw [hfun] at h3
        rw [hd1, hd2, h3]
        rfl
      · rw [if_neg h3]
        rw [hfun] at h3
        have h3' : name.toList.all
            (fun c => specPageNameChar c || isPyWhitespace c) = false :=
          Bool.eq_false_iff.mpr h3
        rw [hd1, hd2, h3']
        rfl

/-- C9: an RGB triple of integers with every component in [0, 255] is
    validated and returned unchanged; a triple of three integers with any
    component below 0 or above 255 fails with InvalidColor. -/
theorem C9_validate_color (r g b : Int) :
    (0 ≤ r → r ≤ 255 → 0 ≤ g → g ≤ 255 → 0 ≤ b → b ≤ 255 →
      validate_color [r, g, b] = .ok [r, g, b]) ∧
    ((r < 0 ∨ 255 < r ∨ g < 0 ∨ 255 < g ∨ b < 0 ∨ 255 < b) →
      validate_color [r, g, b] = .error .InvalidColor) := by
  constructor
  · intro h0 h1 h2 h3 h4 h5
    rw [validate_color_eq]
    have hco : colorOk [r, g, b] = true := by
      simp [colorOk]
      omega
    rw [if_pos hco]
  · intro h
    rw [validate_color_eq]
    have hco : colorOk [r, g, b] = false := by
      simp only [colorOk, List.all_cons, List.all_nil, Bool.and_true]
      simp only [Bool.and_eq_false_iff]
      simp only [decide_eq_false_iff_not]
      omega
    rw [if_neg (by simp [hco])]

theorem C9_witness :
    validate_color [10, 20, 30] = .ok [10, 20, 30] ∧
    validate_color [-1, 0, 0] = .error .InvalidColor :=
  ⟨(C9_validate_color 10 20 30).1 (by omega) (by omega) (by omega) (by omega)
      (by omega) (by omega),
   (C9_validate_color (-1) 0 0).2 (by omega)⟩

/- Frame lemmas for the connect-attempt counter. -/

theorem switch_page_attempts (env : Env) (s : State) (name : String) :
    (switch_page env s name).1.connect_attempts = s.connect_attempts := by
  unfold switch_page
  split
  · rfl
  · exact (render_frame env _).2.2.2.1

theorem delete_page_attempts (env : Env) (s : State) (name : String) :
    (delete_page env s name).1.connect_attempts = s.connect_attempts := by
  unfold delete_page
  split
  · rfl
  · split
    · rfl
    · dsimp only
      split
      · split
        · next s2 e heq =>
          have h := congrArg (fun t => t.1.connect_attempts) heq
          dsimp only at h
          show s2.connect_attempts = s.connect_attempts
          rw [← h]
          exact switch_page_attempts env _ ("main")
        · next s2 b heq =>
          have h := congrArg (fun t => t.1.connect_attempts) heq
          dsimp only at h
          show s2.connect_attempts = s.connect_attempts
          rw [← h]
          exact switch_page_attempts env _ ("main")
      · rfl

theorem create_page_attempts (s : State) (name : String) :
    (create_page s name).1.connect_attempts = s.connect_attempts := by
  unfold create_page
  split
  · rfl
  · split
    · rfl
    · rfl

theorem clear_button_attempts (s : State) (key : Int) :
    (clear_button s key).1.connect_attempts = s.connect_attempts := by
  unfold clear_button
  split
  · rfl
  · split
    · rfl
    · rfl

theorem clear_all_attempts (s : State) :
    (clear_all s).1.connect_attempts = s.connect_attempts := by
  unfold clear_all
  split
  · rfl
  · rfl

theorem set_brightness_attempts (s : State) (p : Int) :
    (set_brightness s p).1.connect_attempts = s.connect_attempts := by
  unfold set_brightness
  split
  · rfl
  · rfl

theorem key_callback_attempts (env : Env) (s : State) (key : Int)
    (pressed : Bool) :
    (key_callback env s key pressed).connect_attempts = s.connect_attempts := by
  unfold key_callback
  split
  · rfl
  · split
    · rfl
    · split
      · rfl
      · split
        · exact switch_page_attempts env s _
        · split
          · rfl
          · rfl

theorem set_buttons_loop_attempts (env : Env) (l : List BtnSpec) :
    ∀ (s : State) (n : Nat),
      (set_buttons_loop env s l n).1.connect_attempts = s.connect_attempts := by
  induction l with
  | nil => intro s n; rfl
  | cons btn rest ih =>
    intro s n
    unfold set_buttons_loop
    split
    · exact ih s n
    · next key hkeq =>
      have hf := (sbi_frame env s key btn.image_path btn.text
        (btn.bg_color.getD DEFAULT_BG_COLOR)
        (btn.text_color.getD DEFAULT_TEXT_COLOR)
        (btn.font_size.getD 14) false).2.2.2.1
      split
      · next s1 e heq =>
        rw [heq] at hf
        rw [ih s1 n]
        exact hf
      · next s1 b heq =>
        rw [heq] at hf
        split
        · rw [ih s1 (n + 1)]
          exact hf
        · next a hae =>
          have hg := (sba_frame s1 key a ("command") false).2.2.2.1
          split
          · next s2 e heq2 =>
            rw [heq2] at hg
            rw [ih s2 n, hg]
            exact hf
          · next s2 b2 heq2 =>
            rw [heq2] at hg
            rw [ih s2 (n + 1), hg]
            exact hf

theorem set_buttons_attempts (env : Env) (s : State) (l : List BtnSpec) :
    (set_buttons env s l).1.connect_attempts = s.connect_attempts := by
  unfold set_buttons
  split
  · rfl
  · exact set_buttons_loop_attempts env l s 0

/-- A sample device handle with fifteen keys, used to instantiate theorems. -/
def exDeck : Deck := ⟨15⟩

/-- C6 counterexample: a connect attempt that fails because no device was
    found is a failed connect attempt of a different kind, and it leaves the
    consecutive-failure counter unchanged — refuting that every failed
    connect attempt (of any failure kind) increments the counter. -/
theorem C6_counterexample :
    (connect env0 state0 ConnectOutcome.noDecks).2 = .error .NoDeviceFound ∧
    (connect env0 state0 ConnectOutcome.noDecks).1.connect_attempts =
      state0.connect_attempts :=
  ⟨rfl, rfl⟩

/-- C6 (amended): the counter counts consecutive failed device-open attempts:
    each failed open increments it and clears the handle, and the call fails
    with ConnectionExhausted exactly when the incremented counter reaches 3
    (OpenFailed below that); enumeration failures and an empty device list
    fail without touching the counter; a successful connect resets it to
    zero; and no operation other than connect modifies it. -/
theorem C6_connect_attempt_counter (env : Env) (s : State) (d : Deck) :
    ((connect env s (.openFail d)).1.connect_attempts =
      s.connect_attempts + 1) ∧
    (MAX_RECONNECT_ATTEMPTS ≤ s.connect_attempts + 1 →
      (connect env s (.openFail d)).2 = .error .ConnectionExhausted) ∧
    (s.connect_attempts + 1 < MAX_RECONNECT_ATTEMPTS →
      (connect env s (.openFail d)).2 = .error .OpenFailed) ∧
    connect env s .enumFail = (s, .error .EnumerateFailed) ∧
    connect env s .noDecks = (s, .error .NoDeviceFound) ∧
    (connect env s (.ok d)).1.connect_attempts = 0 ∧
    (∀ op : Op, (∀ o, op ≠ .connect o) →
      (applyOp env s op).connect_attempts = s.connect_attempts) := by
  refine ⟨?_, ?_, ?_, rfl, rfl, ?_, ?_⟩
  · unfold connect
    dsimp only
    split
    · rfl
    · rfl
  · intro h
    unfold connect
    dsimp only
    rw [if_pos h]
  · intro h
    unfold connect
    dsimp only
    rw [if_neg (by omega)]
  · unfold connect
    dsimp only
    exact (render_frame env _).2.2.2.1
  · intro op hop
    cases op with
    | connect o => exact absurd rfl (hop o)
    | disconnect => rfl
    | set_button_image k ip t bg tc fs sv =>
      exact (sbi_frame env s k ip t bg tc fs sv).2.2.2.1
    | set_button_action k a ty sv => exact (sba_frame s k a ty sv).2.2.2.1
    | set_buttons bs => exact set_buttons_attempts env s bs
    | create_page n => exact create_page_attempts s n
    | switch_page n => exact switch_page_attempts env s n
    | delete_page n => exact delete_page_attempts env s n
    | clear_button k => exact clear_button_attempts s k
    | clear_all => exact clear_all_attempts s
    | set_brightness p => exact set_brightness_attempts s p
    | get_button _ => rfl
    | list_pages => rfl
    | get_deck_info => rfl
    | key_event k p => exact key_callback_attempts env s k p

theorem C6_witness :
    (connect env0 state0 (ConnectOutcome.openFail exDeck)).1.connect_attempts = 1 ∧
    (connect env0 state0 (ConnectOutcome.openFail exDeck)).2 =
      .error .OpenFailed := by
  have h := C6_connect_attempt_counter env0 state0 exDeck
  exact ⟨h.1, h.2.2.1 (by decide)⟩

/- Characterization of the batch operation. -/

theorem keyOk_connected (s : State) (d : Deck) (key : Int)
    (hd : s.deck = some d) :
    keyOk s key = (decide (0 ≤ key) && decide (key < (d.key_count : Int))) := by
  unfold keyOk
  rw [hd]

theorem save_state_saves (s : State) : (save_state s).saves = s.saves + 1 := rfl

theorem sbi_snd_ok (env : Env) (s : State) (d : Deck) (hd : s.deck = some d)
    (key : Int) (ip t : Option String) (bg tc : List Int) (fs : Int)
    (sv : Bool)
    (h : (keyOk s key && colorOk bg && colorOk tc) = true) :
    (set_button_image env s key ip t bg tc fs sv).2 = .ok true := by
  simp only [Bool.and_eq_true] at h
  obtain ⟨⟨h1, h2⟩, h3⟩ := h
  have hc : check_deck_connected s = .ok () := by
    unfold check_deck_connected
    rw [hd]
  unfold set_button_image
  rw [hc, validate_key_eq, if_pos h1]
  simp only [validate_color_eq]
  rw [if_pos h2, if_pos h3]

theorem sbi_err (env : Env) (s : State) (d : Deck) (hd : s.deck = some d)
    (key : Int) (ip t : Option String) (bg tc : List Int) (fs : Int)
    (sv : Bool)
    (h : (keyOk s key && colorOk bg && colorOk tc) = false) :
    ∃ e, set_button_image env s key ip t bg tc fs sv = (s, .error e) := by
  have hc : check_deck_connected s = .ok () := by
    unfold check_deck_connected
    rw [hd]
  by_cases h1 : keyOk s key = true
  · by_cases h2 : colorOk bg = true
    · have h3 : colorOk tc = false := by
        rw [h1, h2] at h
        simpa using h
      refine ⟨.InvalidColor, ?_⟩
      unfold set_button_image
      rw [hc, validate_key_eq, if_pos h1]
      simp only [validate_color_eq]
      rw [if_pos h2, if_neg (by simp [h3])]
    · refine ⟨.InvalidColor, ?_⟩
      unfold set_button_image
      rw [hc, validate_key_eq, if_pos h1]
      simp only [validate_color_eq]
      rw [if_neg h2]
  · refine ⟨.InvalidKey, ?_⟩
    unfold set_button_image
    rw [hc, validate_key_eq, if_neg h1]

theorem sba_snd_ok (s : State) (key : Int) (a ty : String) (sv : Bool)
    (hk : keyOk s key = true) (ha : a.isEmpty = false) :
    (set_button_action s key a ty sv).2 = .ok true := by
  unfold set_button_action
  rw [validate_key_eq, if_pos hk]
  dsimp only
  rw [if_neg (by simp [ha])]

theorem sba_empty (s : State) (key : Int) (a ty : String) (sv : Bool)
    (hk : keyOk s key = true) (ha : a.isEmpty = true) :
    set_button_action s key a ty sv = (s, .error .EmptyAction) := by
  unfold set_button_action
  rw [validate_key_eq, if_pos hk]
  dsimp only
  rw [if_pos ha]

/-- Success predicate for one entry of the batch on a deck d: derived
    characterization of when set_buttons counts the entry (a key is present,
    valid for d, both colors valid, and an action, when given, non-empty). -/
def btnOk (d : Deck) (b : BtnSpec) : Bool :=
  match b.key with
  | none => false
  | some k =>
    decide (0 ≤ k) && decide (k < (d.key_count : Int)) &&
    colorOk (b.bg_color.getD DEFAULT_BG_COLOR) &&
    colorOk (b.text_color.getD DEFAULT_TEXT_COLOR) &&
    (match b.action with
     | none => true
     | some a => !a.isEmpty)

theorem set_buttons_loop_spec (env : Env) (d : Deck) (l : List BtnSpec) :
    ∀ (s : State) (n : Nat), s.deck = some d →
      (set_buttons_loop env s l n).2 = n + l.countP (btnOk d) ∧
      (set_buttons_loop env s l n).1.saves = s.saves := by
  induction l with
  | nil =>
    intro s n hd
    constructor
    · simp [set_buttons_loop]
    · rfl
  | cons btn rest ih =>
    intro s n hd
    rw [List.countP_cons]
    unfold set_buttons_loop
    split
    · next hbk =>
      have hE : btnOk d btn = false := by
        unfold btnOk
        rw [hbk]
      obtain ⟨ha, hb⟩ := ih s n hd
      rw [hE]
      refine ⟨?_, hb⟩
      rw [ha]
      simp
    · next k hbk =>
      have hbo : btnOk d btn =
          (keyOk s k && colorOk (btn.bg_color.getD DEFAULT_BG_COLOR) &&
           colorOk (btn.text_color.getD DEFAULT_TEXT_COLOR) &&
           (match btn.action with
            | none => true
            | some a => !a.isEmpty)) := by
        unfold btnOk
        rw [hbk, keyOk_connected s d k hd]
      split
      · next s1 e heq =>
        cases hC : (keyOk s k && colorOk (btn.bg_color.getD DEFAULT_BG_COLOR) &&
            colorOk (btn.text_color.getD DEFAULT_TEXT_COLOR)) with
        | true =>
          have hok := sbi_snd_ok env s d hd k btn.image_path btn.text
            (btn.bg_color.getD DEFAULT_BG_COLOR)
            (btn.text_color.getD DEFAULT_TEXT_COLOR)
            (btn.font_size.getD 14) false hC
          rw [heq] at hok
          exact absurd hok (by simp)
        | false =>
          obtain ⟨e', heq'⟩ := sbi_err env s d hd k btn.image_path btn.text
            (btn.bg_color.getD DEFAULT_BG_COLOR)
            (btn.text_color.getD DEFAULT_TEXT_COLOR)
            (btn.font_size.getD 14) false hC
          rw [heq'] at heq
          injection heq with hs1 he
          subst hs1
          have hE : btnOk d btn = false := by
            rw [hbo, hC]
            exact Bool.false_and _
          obtain ⟨ha, hb⟩ := ih s n hd
          rw [hE]
          refine ⟨?_, hb⟩
          rw [ha]
          simp
      · next s1 b heq =>
        cases hC : (keyOk s k && colorOk (btn.bg_color.getD DEFAULT_BG_COLOR) &&
            colorOk (btn.text_color.getD DEFAULT_TEXT_COLOR)) with
        | false =>
          obtain ⟨e', heq'⟩ := sbi_err env s d hd k btn.image_path btn.text
            (btn.bg_color.getD DEFAULT_BG_COLOR)
            (btn.text_color.getD DEFAULT_TEXT_COLOR)
            (btn.font_size.getD 14) false hC
          rw [heq'] at heq
          injection heq with hs1 he
          exact absurd he (by simp)
        | true =>
          have hkOk : keyOk s k = true := by
            simp only [Bool.and_eq_true] at hC
            exact hC.1.1
          have hdeck1 : s1.deck = some d := by
            have hf := (sbi_frame env s k btn.image_path btn.text
              (btn.bg_color.getD DEFAULT_BG_COLOR)
              (btn.text_color.getD DEFAULT_TEXT_COLOR)
              (btn.font_size.getD 14) false).1
            rw [heq] at hf
            exact hf.trans hd
          have hsaves1 : s1.saves = s.saves := by
            have hf := sbi_saves_off env s k btn.image_path btn.text
              (btn.bg_color.getD DEFAULT_BG_COLOR)
              (btn.text_color.getD DEFAULT_TEXT_COLOR)
              (btn.font_size.getD 14)
            rw [heq] at hf
            exact hf
          have hkOk1 : keyOk s1 k = true := by
            rw [keyOk_connected s1 d k hdeck1, ← keyOk_connected s d k hd]
            exact hkOk
          split
          · next hba =>
            have hE : btnOk d btn = true := by
              rw [hbo]
              simp only [hba]
              simp [hC]
            obtain ⟨ha, hb⟩ := ih s1 (n + 1) hdeck1
            rw [hE]
            refine ⟨?_, by rw [hb, hsaves1]⟩
            rw [ha]
            simp
            omega
          · next a hba =>
            split
            · next s2 e heq2 =>
              have hae : a.isEmpty = true := by
                cases hx : a.isEmpty with
                | true => rfl
                | false =>
                  have hok := sba_snd_ok s1 k a ("command") false hkOk1 hx
                  rw [heq2] at hok
                  exact absurd hok (by simp)
              have heqe := sba_empty s1 k a ("command") false hkOk1 hae
              rw [heqe] at heq2
              injection heq2 with hs2 he2
              subst hs2
              have hE : btnOk d btn = false := by
                rw [hbo]
                simp only [hba, hae]
                simp
              obtain ⟨ha, hb⟩ := ih s1 n hdeck1
              rw [hE]
              refine ⟨?_, by rw [hb, hsaves1]⟩
              rw [ha]
              simp
            · next s2 b2 heq2 =>
              have hae : a.isEmpty = false := by
                cases hx : a.isEmpty with
                | false => rfl
                | true =>
                  have hemp := sba_empty s1 k a ("command") false hkOk1 hx
                  rw [hemp] at heq2
                  injection heq2 with hs2 he2
                  exact absurd he2 (by simp)
              have hdeck2 : s2.deck = some d := by
                have hf := (sba_frame s1 k a ("command") false).1
                rw [heq2] at hf
                exact hf.trans hdeck1
              have hsaves2 : s2.saves = s1.saves := by
                have hf := sba_saves_off s1 k a ("command")
                rw [heq2] at hf
                exact hf
              have hE : btnOk d btn = true := by
                rw [hbo]
                simp only [hba, hae]
                simp [hC]
              obtain ⟨ha, hb⟩ := ih s2 (n + 1) hdeck2
              rw [hE]
              refine ⟨?_, by rw [hb, hsaves2, hsaves1]⟩
              rw [ha]
              simp
              omega

/-- A connected fresh state used to instantiate the batch theorem. -/
def exState : State := { state0 with deck := some exDeck }

/-- The batch of the spec's example: a valid entry at key 0, an invalid entry
    at key -1, a valid entry at key 1. -/
def exBatch : List BtnSpec :=
  [{ key := some 0, text := some ("A"), image_path := none, bg_color := none,
     text_color := none, font_size := none, action := none },
   { key := some (-1), text := some ("B"), image_path := none,
     bg_color := none, text_color := none, font_size := none, action := none },
   { key := some 1, text := some ("C"), image_path := none, bg_color := none,
     text_color := none, font_size := none, action := none }]

/-- C5: with a connected deck, set_buttons never fails, applies the entries
    with per-entry persistence off, tolerates per-entry validation failures
    without aborting the rest, saves exactly once at the end (the ghost save
    counter grows by exactly one), and returns the number of entries
    successfully applied (characterized by btnOk); on the example batch with
    keys 0, -1, 1 it configures keys 0 and 1, skips key -1, and returns 2. -/
theorem C5_set_buttons :
    (∀ (env : Env) (s : State) (d : Deck) (btns : List BtnSpec),
      s.deck = some d →
      (set_buttons env s btns).2 = .ok (btns.countP (btnOk d)) ∧
      (set_buttons env s btns).1.saves = s.saves + 1) ∧
    ((set_buttons env0 exState exBatch).2 = .ok 2 ∧
     (alookup ((alookup (set_buttons env0 exState exBatch).1.pages
       ("main")).getD []) ("0")).isSome = true ∧
     (alookup ((alookup (set_buttons env0 exState exBatch).1.pages
       ("main")).getD []) ("1")).isSome = true ∧
     alookup ((alookup (set_buttons env0 exState exBatch).1.pages
       ("main")).getD []) ("-1") = none ∧
     (set_buttons env0 exState exBatch).1.saves = exState.saves + 1) := by
  constructor
  · intro env s d btns hd
    have hc : check_deck_connected s = .ok () := by
      unfold check_deck_connected
      rw [hd]
    obtain ⟨h1, h2⟩ := set_buttons_loop_spec env d btns s 0 hd
    unfold set_buttons
    rw [hc]
    dsimp only
    constructor
    · rw [h1]
      simp
    · rw [save_state_saves, h2]
  · refine ⟨by rfl, by decide, by decide, by decide, by decide⟩

theorem C5_witness :
    (set_buttons env0 exState exBatch).2 =
      .ok (exBatch.countP (btnOk exDeck)) ∧
    (set_buttons env0 exState exBatch).1.saves = exState.saves + 1 :=
  C5_set_buttons.1 env0 exState exDeck exBatch rfl

end StreamDeck
